import Mathlib

/-!
Shallow embedding of the core numeric routines of the python-flux
repository (files `src/flux/shape.py`, `src/src/flux/shape.py` and
`tutorial.py`) in Lean 4, together with theorems settling the frozen
claims about them.

Modelling conventions:
* numpy float arithmetic is modelled exactly over `ℚ`;
* `np.sqrt` is irrational in general, so the embedded functions take a
  function parameter `sq : ℚ → ℚ` standing for `np.sqrt` applied to the
  squared norm; theorems add the properties of the square root they
  need as hypotheses, and concrete witnesses instantiate `sq` with a
  function that is exact on the rational squares involved;
* ray tracing (Embree / the CGAL AABB tree) is external to the
  repository, so ray queries are abstracted as oracle parameters
  (`escapes`, `hit`): the wrapper logic around them is embedded from
  the source verbatim;
* in-place numpy mutation (`Dsun /= distSunkm`) is modelled by
  returning the mutated array as an explicit component of the result;
* division by zero in `ℚ` yields `0` where numpy would produce
  `nan`/`inf`; no claim below depends on the value produced there.
-/

/-- a 3-vector of rationals, modelling one row of a numpy `(n, 3)` array -/
structure Vec3 where
  x : ℚ
  y : ℚ
  z : ℚ
deriving DecidableEq, Repr

namespace Vec3

/-- componentwise addition of 3-vectors -/
def add (u v : Vec3) : Vec3 := ⟨u.x + v.x, u.y + v.y, u.z + v.z⟩

/-- componentwise subtraction of 3-vectors -/
def sub (u v : Vec3) : Vec3 := ⟨u.x - v.x, u.y - v.y, u.z - v.z⟩

/-- scalar multiplication of a 3-vector -/
def sm (c : ℚ) (v : Vec3) : Vec3 := ⟨c * v.x, c * v.y, c * v.z⟩

/-- dot product of 3-vectors, modelling `u @ v` for rows -/
def dot (u v : Vec3) : ℚ := u.x * v.x + u.y * v.y + u.z * v.z

/-- cross product of 3-vectors, modelling `np.cross` on rows -/
def cross (u v : Vec3) : Vec3 :=
  ⟨u.y * v.z - u.z * v.y, u.z * v.x - u.x * v.z, u.x * v.y - u.y * v.x⟩

/-- squared Euclidean norm `np.sum(v**2)` of a 3-vector -/
def normSq (v : Vec3) : ℚ := v.x * v.x + v.y * v.y + v.z * v.z

/-- the zero 3-vector -/
def zero : Vec3 := ⟨0, 0, 0⟩

end Vec3

/-- a triangular face, modelling one row of the numpy index array `F` -/
def Face : Type := ℕ × ℕ × ℕ

instance : DecidableEq Face := by
  unfold Face
  infer_instance

/-- vertex lookup `V[k]`, with an arbitrary default out of range -/
def vtx (V : List Vec3) (k : ℕ) : Vec3 := V.getD k Vec3.zero

/-- embedding of `get_centroids(V, F)` from `src/src/flux/shape.py`
(lines 14-15): the centroid of each face is the arithmetic mean
`V[F].mean(axis=1)` of its three vertices -/
def get_centroids (V : List Vec3) (F : List Face) : List Vec3 :=
  F.map (fun f => Vec3.sm (1/3) (Vec3.add (Vec3.add (vtx V f.1) (vtx V f.2.1)) (vtx V f.2.2)))

/-- embedding of `get_cross_products(V, F)` (lines 18-21):
`np.cross(V[F][:, 1, :] - V0, V[F][:, 2, :] - V0)` -/
def get_cross_products (V : List Vec3) (F : List Face) : List Vec3 :=
  F.map (fun f =>
    Vec3.cross (Vec3.sub (vtx V f.2.1) (vtx V f.1)) (Vec3.sub (vtx V f.2.2) (vtx V f.1)))

/-- embedding of `get_face_areas(V, F)` (lines 24-28): each area is
`np.sqrt(np.sum(C**2, axis=1)) / 2` with `sq` standing for `np.sqrt` -/
def get_face_areas (sq : ℚ → ℚ) (V : List Vec3) (F : List Face) : List ℚ :=
  (get_cross_products V F).map (fun c => sq (Vec3.normSq c) / 2)

/-- embedding of `get_surface_normals(V, F)` (lines 31-35): each normal is
`C / C_norms`; in `ℚ` a zero norm divides to the zero vector where numpy
would emit `nan` components -/
def get_surface_normals (sq : ℚ → ℚ) (V : List Vec3) (F : List Face) : List Vec3 :=
  (get_cross_products V F).map (fun c => Vec3.sm (sq (Vec3.normSq c))⁻¹ c)

/-- embedding of `get_surface_normals_and_face_areas(V, F)` (lines 38-43) -/
def get_surface_normals_and_face_areas (sq : ℚ → ℚ) (V : List Vec3) (F : List Face) :
    List Vec3 × List ℚ :=
  (get_surface_normals sq V F, get_face_areas sq V F)

/-- the state built by `TrimeshShapeModel.__init__`
(`src/src/flux/shape.py` lines 53-110): the stored arrays
`self.V, self.F, self.N, self.A, self.P` -/
structure TrimeshShapeModel where
  V : List Vec3
  Fc : List Face
  N : List Vec3
  A : List ℚ
  P : List Vec3
deriving DecidableEq

/-- embedding of `TrimeshShapeModel.__init__` (lines 53-110), run through a
concrete subclass so the `type(self) == TrimeshShapeModel` guard does not
fire.  The only `raise` reachable from the array handling is the
surface-normal count mismatch (lines 93-97); there is no degeneracy check
anywhere on this path.  `self.P` is always recomputed from `V, F`
(line 102). -/
def trimeshInit (sq : ℚ → ℚ) (V : List Vec3) (F : List Face)
    (Nopt : Option (List Vec3)) (Aopt : Option (List ℚ)) :
    Except String TrimeshShapeModel :=
  match Nopt, Aopt with
  | none, none =>
    let NA := get_surface_normals_and_face_areas sq V F
    .ok ⟨V, F, NA.1, NA.2, get_centroids V F⟩
  | some N, none =>
    if N.length ≠ F.length then
      .error "must pass same number of surface normals as faces"
    else
      .ok ⟨V, F, N, get_face_areas sq V F, get_centroids V F⟩
  | none, some A =>
    .ok ⟨V, F, get_surface_normals sq V F, A, get_centroids V F⟩
  | some N, some A =>
    .ok ⟨V, F, N, A, get_centroids V F⟩

/-- the ray-origin perturbation `eps = 1e3*np.finfo(np.float32).resolution`
used by `EmbreeTrimeshShapeModel._get_visibility` (line 332) and
`get_direct_irradiance` (line 252 of `src/flux/shape.py`):
`np.finfo(np.float32).resolution == 1e-6`, so `eps == 1/1000` exactly -/
def embreeEps : ℚ := 1 / 1000

/-- embedding of the public wrapper `TrimeshShapeModel.get_visibility(I, J,
oriented)` (`src/src/flux/shape.py` lines 127-156), entrywise.  `raw`
abstracts the subclass method `self._get_visibility(I, J, oriented)`; the
oriented pass multiplies row `p` by `(PJ - self.P[i]) @ self.N[i] > 0`
(line 150, `i = I[p]` only), and the final pass sets every entry of row `p`
whose column satisfies `J == i` to `False` (line 154). -/
def get_visibility (raw : ℕ → ℕ → Bool) (P N : ℕ → Vec3) (I J : List ℕ)
    (oriented : Bool) : ℕ → ℕ → Bool :=
  fun p q =>
    if J.getD q 0 = I.getD p 0 then false
    else if oriented then
      raw p q &&
        decide (0 < Vec3.dot (Vec3.sub (P (J.getD q 0)) (P (I.getD p 0)))
          (N (I.getD p 0)))
    else raw p q

/-- Modelled from the spec: `AABB.test_face_to_face_vis(i, j)` lives in the
compiled extension `flux/cgal/aabb`, which is not under `src/`.  Per spec
section 4.B it ray-casts from `P[i] + eps*N[i]` toward `P[j]` and checks
that the hit face is `j`; `hit` abstracts the first-hit ray query of the
AABB tree. -/
def test_face_to_face_vis (sq : ℚ → ℚ) (hit : Vec3 → Vec3 → Option ℕ)
    (P N : ℕ → Vec3) (i j : ℕ) : Bool :=
  decide (hit (Vec3.add (P i) (Vec3.sm embreeEps (N i)))
      (Vec3.sm (sq (Vec3.normSq (Vec3.sub (P j) (P i))))⁻¹ (Vec3.sub (P j) (P i)))
    = some j)

/-- embedding of `CgalTrimeshShapeModel._get_visibility(I, J, oriented)`
(`src/src/flux/shape.py` lines 260-268), entrywise: entries with `i == j`
are `False`, all others query `self.aabb.test_face_to_face_vis(i, j)` -/
def cgal_get_visibility (sq : ℚ → ℚ) (hit : Vec3 → Vec3 → Option ℕ)
    (P N : ℕ → Vec3) (I J : List ℕ) : ℕ → ℕ → Bool :=
  fun p q =>
    if I.getD p 0 = J.getD q 0 then false
    else test_face_to_face_vis sq hit P N (I.getD p 0) (J.getD q 0)

/-- embedding of `EmbreeTrimeshShapeModel._get_visibility(I, J, oriented)`
(`src/src/flux/shape.py` lines 330-379), entrywise.  The direction
`D = PJ - P[i]` is kept only where its norm exceeds `eps`
(`mask = D_norm_sq > eps`, line 342); masked-out entries keep the default
`vis = np.ones(...)`, i.e. `True` (line 373).  Kept entries trace a ray
from `P[i] + eps*D̂` along `D̂` and are visible iff a hit exists and the
hit primitive is `j` (lines 361-377); `hit` abstracts
`scene.intersect1M`, returning the first face hit by the ray. -/
def embree_get_visibility (sq : ℚ → ℚ) (hit : Vec3 → Vec3 → Option ℕ)
    (P : ℕ → Vec3) (I J : List ℕ) : ℕ → ℕ → Bool :=
  fun p q =>
    if embreeEps <
        sq (Vec3.normSq (Vec3.sub (P (J.getD q 0)) (P (I.getD p 0)))) then
      decide (hit
          (Vec3.add (P (I.getD p 0)) (Vec3.sm embreeEps
            (Vec3.sm (sq (Vec3.normSq (Vec3.sub (P (J.getD q 0)) (P (I.getD p 0)))))⁻¹
              (Vec3.sub (P (J.getD q 0)) (P (I.getD p 0))))))
          (Vec3.sm (sq (Vec3.normSq (Vec3.sub (P (J.getD q 0)) (P (I.getD p 0)))))⁻¹
            (Vec3.sub (P (J.getD q 0)) (P (I.getD p 0))))
        = some (J.getD q 0))
    else
      true

/-- the loop state of `solve_kernel_system` (`tutorial.py` lines 47-60):
the current iterate `x`, the update `dx`, the matrix-apply counter `nmul`
and the scalar `err` -/
structure SolveState (n : ℕ) where
  x : Fin n → ℚ
  dx : Fin n → ℚ
  nmul : ℕ
  err : ℚ

/-- embedding of the `while` loop of `solve_kernel_system` (`tutorial.py`
lines 52-59), with explicit fuel for termination.  `L` abstracts the
linear operator, applied by `L @ v`; note the source really does recompute
`dx = L@(rho*b)` from `b` inside the loop (line 54), so `dx` never
changes; `np.linalg.norm` of the scalar `err` is `|err|`.  `nrm`
abstracts `np.linalg.norm` on vectors. -/
def solveLoop {n : ℕ} (L : (Fin n → ℚ) → (Fin n → ℚ)) (b : Fin n → ℚ)
    (rho tol : ℚ) (nrm : (Fin n → ℚ) → ℚ) : ℕ → SolveState n → SolveState n
  | 0, s => s
  | fuel + 1, s =>
    if tol < |s.err| then
      let x := b + s.dx
      let dx := L (rho • b)
      let nmul := s.nmul + 1
      let prevErr := s.err
      let err := nrm (b - x + dx)
      if |err - prevErr| < tol then ⟨x, dx, nmul, err⟩
      else solveLoop L b rho tol nrm fuel ⟨x, dx, nmul, err⟩
    else s

/-- embedding of `solve_kernel_system(L, b, rho, tol)` (`tutorial.py`
lines 47-60): initialize `x = b`, `dx = L@(rho*b)`, `nmul = 1`,
`err = norm(b - x + dx)`, run the while loop, and return `(x, nmul)` -/
def solve_kernel_system {n : ℕ} (fuel : ℕ) (L : (Fin n → ℚ) → (Fin n → ℚ))
    (b : Fin n → ℚ) (rho tol : ℚ) (nrm : (Fin n → ℚ) → ℚ) :
    (Fin n → ℚ) × ℕ :=
  let x := b
  let dx := L (rho • b)
  let nmul := 1
  let err := nrm (b - x + dx)
  let s := solveLoop L b rho tol nrm fuel ⟨x, dx, nmul, err⟩
  (s.x, s.nmul)

/-- embedding of `compute_T(L, Q, rho, emiss, tol)` (`tutorial.py` lines
62-69).  `sigma` stands for `scipy.constants.sigma` and `root` for the
componentwise fourth root `Q**(1/4)`, both irrational floats in the
source. -/
def compute_T {n : ℕ} (fuel : ℕ) (L : (Fin n → ℚ) → (Fin n → ℚ))
    (Q : Fin n → ℚ) (rho emiss sigma tol : ℚ) (nrm : (Fin n → ℚ) → ℚ)
    (root : ℚ → ℚ) : (Fin n → ℚ) × ℕ :=
  let r1 := solve_kernel_system fuel L Q rho tol nrm
  let Q1 := (1 - rho) • r1.1
  let r2 := solve_kernel_system fuel L Q1 1 tol nrm
  let Q2 := (1 - emiss) • Q1 + emiss • r2.1
  let Q3 := (emiss * sigma)⁻¹ • Q2
  (fun i => root (Q3 i), r1.2 + r2.2)

/-- the iteration the claim (and spec section 4.H) ascribes to
`solve_kernel_system`, written from the claim text for comparison with the
source embedding: `x_0 = b`, `x_{k+1} = b + rho * (L @ x_k)`, each new
matrix product applied to the previous iterate -/
def claimed_neumann_iterate {n : ℕ} (L : (Fin n → ℚ) → (Fin n → ℚ))
    (b : Fin n → ℚ) (rho : ℚ) : ℕ → (Fin n → ℚ)
  | 0 => b
  | k + 1 => b + rho • L (claimed_neumann_iterate L b rho k)

/-- `1 AU` in kilometers, the constant `AU_km = 149597900.` of
`src/flux/shape.py` line 299 -/
def AUkm : ℚ := 149597900

/-- embedding of the single-direction branch (`Dsun.ndim == 1`) of
`TrimeshShapeModel.get_direct_irradiance(F0, Dsun, unit_Svec, basemesh,
eps)` from `src/flux/shape.py` lines 218-315.  `Dsun` is normalized in
place by `Dsun /= distSunkm` (lines 264-266); the mutated array is
returned as the second component.  `escapes i` abstracts
`np.isposinf(ray.tfar)[i]` after `occluded1M` on the ray from
`P[i] + eps*N[i]` along the normalized `Dsun` (lines 268-295).  When
`unit_Svec` is false, `F0` is rescaled by `(AU_km / distSunkm)**2`
(lines 298-300).  `E` is `np.zeros(n)` overwritten on escaped faces with
`F0*np.maximum(0, N[I]@Dsun)` (lines 304-305). -/
def get_direct_irradiance (sq : ℚ → ℚ) (escapes : ℕ → Bool) (F0 : ℚ)
    (Dsun : Vec3) (Nf : ℕ → Vec3) (n : ℕ) (unitSvec : Bool) :
    List ℚ × Vec3 :=
  let distSunkm := sq (Vec3.normSq Dsun)
  let Dsun2 := Vec3.sm distSunkm⁻¹ Dsun
  let F0b := if unitSvec then F0 else F0 * (AUkm / distSunkm) ^ 2
  (List.ofFn (fun i : Fin n =>
      if escapes i then F0b * max 0 (Vec3.dot (Nf i) Dsun2) else 0),
   Dsun2)

/-- embedding of the batch branch (`Dsun.ndim == 2`) of
`get_direct_irradiance` from `src/flux/shape.py` lines 277-315.  Each row
of `Dsun` is normalized in place by its own norm (lines 279-280; the
mutated array is the second component).  `escapes s i` abstracts the
escape test for the ray from face `i` along sun direction `s`.  The
result is `E = np.zeros((n, m))` (line 307) with `E[I[s], s]` set to
`F0*np.maximum(0, N[I[s]]@d)` for sun `s` (lines 310-314), giving faces
on rows and sun directions on columns; when `unit_Svec` is false the
per-sun rescaled `F0[s]` is used. -/
def get_direct_irradiance_batch (sq : ℚ → ℚ) (escapes : ℕ → ℕ → Bool)
    (F0 : ℚ) (Dsun : List Vec3) (Nf : ℕ → Vec3) (n : ℕ) (unitSvec : Bool) :
    List (List ℚ) × List Vec3 :=
  let m := Dsun.length
  let dist := fun d : Vec3 => sq (Vec3.normSq d)
  let Dsun2 := Dsun.map (fun d => Vec3.sm (dist d)⁻¹ d)
  let F0b := fun d : Vec3 => if unitSvec then F0 else F0 * (AUkm / dist d) ^ 2
  (List.ofFn (fun i : Fin n =>
      List.ofFn (fun s : Fin m =>
        let d := Dsun.getD s Vec3.zero
        if escapes s i then
          F0b d * max 0 (Vec3.dot (Nf i) (Vec3.sm (dist d)⁻¹ d))
        else 0)),
   Dsun2)

/-! Concrete instances used by counterexamples and witnesses. -/

/-- the 1x1 operator `L = [[1/2]]`, applied as `L @ v` -/
def tutL : (Fin 1 → ℚ) → (Fin 1 → ℚ) := fun v i => v i / 2

/-- the right-hand side `b = [1]` -/
def tutB : Fin 1 → ℚ := fun _ => 1

/-- the Euclidean norm on 1-vectors, `np.linalg.norm v = |v[0]|` exactly -/
def tutNrm : (Fin 1 → ℚ) → ℚ := fun v => |v 0|

/-- centroids of a two-face configuration: `P[0] = (0,0,0)`,
`P[k] = (1,0,0)` for `k > 0` -/
def cexP : ℕ → Vec3 := fun k => if k = 0 then ⟨0, 0, 0⟩ else ⟨1, 0, 0⟩

/-- normals of the two-face configuration: all equal to `(1,0,0)`, so face
`0` faces toward face `1` but face `1` faces away from face `0` -/
def cexN : ℕ → Vec3 := fun _ => ⟨1, 0, 0⟩

/-- vertices of a degenerate one-triangle mesh: three collinear points -/
def Vdeg : List Vec3 := [⟨0, 0, 0⟩, ⟨1, 0, 0⟩, ⟨2, 0, 0⟩]

/-- the face list of the degenerate mesh: the single collinear triangle -/
def Fdeg : List Face := [(0, 1, 2)]

/-- a square-root stand-in exact at `25`, used for witnesses whose input
vector is `(0,3,4)` with squared norm `25` -/
def sqAt25 : ℚ → ℚ := fun c => if c = 25 then 5 else c

/-! Theorems settling the claims. -/

/-- a state whose stopping test already fails is returned unchanged by the
`while` loop, whatever the fuel -/
theorem solveLoop_of_not_lt {n : ℕ} (L : (Fin n → ℚ) → (Fin n → ℚ))
    (b : Fin n → ℚ) (rho tol : ℚ) (nrm : (Fin n → ℚ) → ℚ) (fuel : ℕ)
    (s : SolveState n) (h : ¬ tol < |s.err|) :
    solveLoop L b rho tol nrm fuel s = s := by
  cases fuel <;> simp [solveLoop, h]

/-- on the zero right-hand side the solver exits immediately with the zero
iterate and one matrix apply -/
theorem solve_kernel_system_zero {n : ℕ} (fuel : ℕ)
    (L : (Fin n → ℚ) → (Fin n → ℚ)) (rho tol : ℚ)
    (nrm : (Fin n → ℚ) → ℚ) (hL : L 0 = 0) (htol : 0 < tol)
    (hnrm : nrm 0 = 0) :
    solve_kernel_system fuel L 0 rho tol nrm = (0, 1) := by
  have hdx : L (rho • (0 : Fin n → ℚ)) = 0 := by rw [smul_zero, hL]
  have herr : nrm ((0 : Fin n → ℚ) - 0 + 0) = 0 := by
    rw [sub_zero, add_zero, hnrm]
  unfold solve_kernel_system
  simp only [hdx, herr]
  rw [solveLoop_of_not_lt]
  simp [htol.le]

/-- C1: the claim states that `solve_kernel_system` iterates
`x_{k+1} = b + rho * (L @ x_k)`, applying each matrix product to the
previous iterate.  The source (`tutorial.py` line 54) recomputes
`dx = L@(rho*b)` from `b` inside the loop, so the update never changes:
on `L = [[1/2]]`, `b = [1]`, `rho = 1`, `tol = 1/100` the code performs 2
matrix applies and returns `x = 3/2`, while the claimed recurrence after
2 applies gives `x_2 = 7/4`. -/
theorem C1_solve_kernel_system_reapplies_L_to_b :
    (solve_kernel_system 2 tutL tutB 1 (1/100) tutNrm).1 0 = 3/2 ∧
    (solve_kernel_system 2 tutL tutB 1 (1/100) tutNrm).2 = 2 ∧
    claimed_neumann_iterate tutL tutB 1 2 0 = 7/4 ∧
    (solve_kernel_system 2 tutL tutB 1 (1/100) tutNrm).1 0 ≠
      claimed_neumann_iterate tutL tutB 1 2 0 := by
  have hs : (solve_kernel_system 2 tutL tutB 1 (1/100) tutNrm).1 0 = 3/2 ∧
      (solve_kernel_system 2 tutL tutB 1 (1/100) tutNrm).2 = 2 := by
    norm_num [solve_kernel_system, solveLoop, tutL, tutB, tutNrm]
    rw [if_pos (by rw [abs_of_pos] <;> norm_num)]
    norm_num [Pi.add_apply, tutL, tutB]
  have hn : claimed_neumann_iterate tutL tutB 1 2 0 = 7/4 := by
    norm_num [claimed_neumann_iterate, tutL, tutB, Pi.add_apply, Pi.smul_apply]
  refine ⟨hs.1, hs.2, hn, ?_⟩
  rw [hs.1, hn]
  norm_num

/-- C8: zero irradiance yields zero steady-state temperature: for every
operator `L` with `L 0 = 0`, every albedo, emissivity, positive tolerance,
norm vanishing at `0` and fourth root vanishing at `0`, `compute_T` on the
zero vector returns the zero temperature vector. -/
theorem C8_zero_irradiance_gives_zero_temperature {n : ℕ} (fuel : ℕ)
    (L : (Fin n → ℚ) → (Fin n → ℚ)) (rho emiss sigma tol : ℚ)
    (nrm : (Fin n → ℚ) → ℚ) (root : ℚ → ℚ) (hL : L 0 = 0) (htol : 0 < tol)
    (hnrm : nrm 0 = 0) (hroot : root 0 = 0) :
    (compute_T fuel L 0 rho emiss sigma tol nrm root).1 = 0 := by
  unfold compute_T
  rw [solve_kernel_system_zero fuel L rho tol nrm hL htol hnrm]
  simp only [smul_zero]
  rw [solve_kernel_system_zero fuel L 1 tol nrm hL htol hnrm]
  funext i
  simp [hroot]

/-- a closed instance of C8: the zero irradiance vector on the operator
`[[1/2]]` with `rho = emiss = 1/2`, `sigma = 1`, `tol = 1` produces the
zero temperature vector -/
theorem C8_zero_irradiance_gives_zero_temperature_witness :
    (compute_T 3 tutL 0 (1/2) (1/2) 1 1 tutNrm id).1 = 0 :=
  C8_zero_irradiance_gives_zero_temperature 3 tutL (1/2) (1/2) 1 1 tutNrm id
    (by funext i; simp [tutL]) (by norm_num) (by simp [tutNrm]) rfl

/-- C5: for every raw visibility oracle, every pair of index arrays and
every oriented flag, `get_visibility` returns `False` at each in-range
position `(p, q)` with `I[p] == J[q]`: a face never sees itself -/
theorem C5_faces_never_see_themselves (raw : ℕ → ℕ → Bool) (P N : ℕ → Vec3)
    (I J : List ℕ) (oriented : Bool) (p q : ℕ)
    (hp : p < I.length) (hq : q < J.length)
    (hij : I.getD p 0 = J.getD q 0) :
    get_visibility raw P N I J oriented p q = false := by
  simp only [get_visibility]
  rw [if_pos hij.symm]

/-- a closed instance of C5: with an always-true raw oracle on
`I = J = [5]`, the `(0, 0)` entry is still `False` -/
theorem C5_faces_never_see_themselves_witness :
    get_visibility (fun _ _ => true) cexP cexN [5] [5] true 0 0 = false :=
  C5_faces_never_see_themselves (fun _ _ => true) cexP cexN [5] [5] true 0 0
    (by decide) (by decide) rfl

/-- C6 counterexample: with `P[0] = (0,0,0)`, `P[1] = (1,0,0)` and both
normals `(1,0,0)`, the source-side condition `(P[1]-P[0])·N[0] > 0` holds
but the target-side condition `(P[0]-P[1])·N[1] > 0` fails, yet
`get_visibility` with `oriented=True` still reports the pair visible: the
symmetric check claimed is not performed -/
theorem C6_oriented_visibility_counterexample :
    get_visibility (fun _ _ => true) cexP cexN [0] [1] true 0 0 = true ∧
    ¬ 0 < Vec3.dot (Vec3.sub (cexP 0) (cexP 1)) (cexN 1) := by
  constructor
  · simp only [get_visibility, cexP, cexN]
    norm_num [Vec3.dot, Vec3.sub]
  · norm_num [Vec3.dot, Vec3.sub, cexP, cexN]

/-- C6 amended: with `oriented=True`, `get_visibility` reports a pair
visible only if the source-side orientation condition
`(P[j]-P[i])·N[i] > 0` holds; the target-side condition is not enforced -/
theorem C6_oriented_visibility_source_side (raw : ℕ → ℕ → Bool)
    (P N : ℕ → Vec3) (I J : List ℕ) (p q : ℕ)
    (h : get_visibility raw P N I J true p q = true) :
    0 < Vec3.dot (Vec3.sub (P (J.getD q 0)) (P (I.getD p 0))) (N (I.getD p 0)) := by
  by_contra hc
  simp only [get_visibility] at h
  split at h
  · exact Bool.false_ne_true h
  · rw [if_pos trivial] at h
    exact hc (of_decide_eq_true ((Bool.and_eq_true _ _).mp h).2)

/-- a closed instance of the amended C6: on the two-face configuration the
`(0, 0)` entry is visible and the source-side condition indeed holds -/
theorem C6_oriented_visibility_source_side_witness :
    get_visibility (fun _ _ => true) cexP cexN [0] [1] true 0 0 = true ∧
    0 < Vec3.dot (Vec3.sub (cexP 1) (cexP 0)) (cexN 0) := by
  have h : get_visibility (fun _ _ => true) cexP cexN [0] [1] true 0 0 = true := by
    simp only [get_visibility, cexP, cexN]
    norm_num [Vec3.dot, Vec3.sub]
  exact ⟨h, C6_oriented_visibility_source_side (fun _ _ => true) cexP cexN [0] [1] 0 0 h⟩

/-- C7 counterexample: faces `0` and `1` share the same centroid, so the
ray between them is degenerate (zero direction); the Embree-path oracle
masks the ray out and reports the pair as visible (`True`), not occluded
as claimed -/
theorem C7_degenerate_ray_counterexample :
    embree_get_visibility id (fun _ _ => none) (fun _ => Vec3.zero)
      [0] [1] 0 0 = true := by
  unfold embree_get_visibility
  rw [if_neg]
  norm_num [Vec3.sub, Vec3.normSq, Vec3.zero, embreeEps]

/-- C7 amended: every visibility query whose centroid-to-centroid
direction has norm at most `eps` (in particular a zero direction) skips
ray tracing entirely and is reported as visible (unoccluded) by default,
not as occluded -/
theorem C7_degenerate_rays_default_visible (sq : ℚ → ℚ)
    (hit : Vec3 → Vec3 → Option ℕ) (P : ℕ → Vec3) (I J : List ℕ) (p q : ℕ)
    (h : ¬ embreeEps < sq (Vec3.normSq (Vec3.sub (P (J.getD q 0)) (P (I.getD p 0))))) :
    embree_get_visibility sq hit P I J p q = true := by
  unfold embree_get_visibility
  rw [if_neg h]

/-- a closed instance of the amended C7: coincident centroids yield a
zero direction, whose norm does not exceed `eps`, and the entry is `True` -/
theorem C7_degenerate_rays_default_visible_witness :
    embree_get_visibility id (fun _ _ => none) (fun _ => Vec3.zero)
      [2] [3] 0 0 = true :=
  C7_degenerate_rays_default_visible id (fun _ _ => none) (fun _ => Vec3.zero)
    [2] [3] 0 0 (by norm_num [Vec3.sub, Vec3.normSq, Vec3.zero, embreeEps])

/-- C4 counterexample: on the pair `I = J = [0]` the CGAL-path oracle
returns `False` at `(0, 0)` (the `i == j` short-circuit) while the
Embree-path oracle returns `True` (the zero-direction ray is masked out
and left at the default), so the two implementations do not return the
same boolean matrix entrywise -/
theorem C4_oracle_equivalence_counterexample :
    cgal_get_visibility id (fun _ _ => none) cexP cexN [0] [0] 0 0 = false ∧
    embree_get_visibility id (fun _ _ => none) cexP [0] [0] 0 0 = true := by
  constructor
  · simp [cgal_get_visibility]
  · unfold embree_get_visibility
    rw [if_neg]
    norm_num [Vec3.sub, Vec3.normSq, cexP, embreeEps]

/-- C4 amended: the two oracles agree at every entry whose faces are
distinct and whose centroid distance exceeds `eps`, provided the
underlying ray queries agree modulo the `eps` perturbation of the origin
(the CGAL path perturbs by `eps*N[i]`, the Embree path by `eps*D̂`); they
differ at self-pairs and sub-`eps` pairs, where CGAL reports `False` and
Embree defaults to `True` -/
theorem C4_oracles_agree_modulo_eps (sq : ℚ → ℚ)
    (hit : Vec3 → Vec3 → Option ℕ) (P N : ℕ → Vec3) (I J : List ℕ)
    (p q : ℕ) (hne : I.getD p 0 ≠ J.getD q 0)
    (hdist : embreeEps <
      sq (Vec3.normSq (Vec3.sub (P (J.getD q 0)) (P (I.getD p 0)))))
    (hagree :
      hit (Vec3.add (P (I.getD p 0)) (Vec3.sm embreeEps (N (I.getD p 0))))
        (Vec3.sm (sq (Vec3.normSq (Vec3.sub (P (J.getD q 0)) (P (I.getD p 0)))))⁻¹
          (Vec3.sub (P (J.getD q 0)) (P (I.getD p 0)))) =
      hit (Vec3.add (P (I.getD p 0)) (Vec3.sm embreeEps
            (Vec3.sm (sq (Vec3.normSq (Vec3.sub (P (J.getD q 0)) (P (I.getD p 0)))))⁻¹
              (Vec3.sub (P (J.getD q 0)) (P (I.getD p 0))))))
        (Vec3.sm (sq (Vec3.normSq (Vec3.sub (P (J.getD q 0)) (P (I.getD p 0)))))⁻¹
          (Vec3.sub (P (J.getD q 0)) (P (I.getD p 0))))) :
    cgal_get_visibility sq hit P N I J p q =
      embree_get_visibility sq hit P I J p q := by
  simp only [cgal_get_visibility, embree_get_visibility, test_face_to_face_vis,
    if_neg hne, if_pos hdist]
  rw [hagree]

/-- a closed instance of the amended C4: distinct faces one unit apart
with a ray oracle that is insensitive to the sub-`eps` origin shift; both
paths report the entry visible -/
theorem C4_oracles_agree_modulo_eps_witness :
    cgal_get_visibility id (fun _ _ => some 1) cexP cexN [0] [1] 0 0 =
      embree_get_visibility id (fun _ _ => some 1) cexP [0] [1] 0 0 :=
  C4_oracles_agree_modulo_eps id (fun _ _ => some 1) cexP cexN [0] [1] 0 0
    (by decide)
    (by norm_num [cexP, Vec3.sub, Vec3.normSq, embreeEps])
    rfl

/-- C2: for every face `i`, with `unit_Svec=True`, the direct irradiance
is `F0 * max(0, N[i]·D̂_sun)` when the occlusion ray from
`P[i] + eps*N[i]` along the sun direction escapes to infinity, and `0`
when it is occluded (here `D̂_sun` is `Dsun` after the in-place
normalization by its norm) -/
theorem C2_direct_irradiance_formula (sq : ℚ → ℚ) (escapes : ℕ → Bool)
    (F0 : ℚ) (Dsun : Vec3) (Nf : ℕ → Vec3) (n : ℕ) (i : ℕ) (hi : i < n) :
    (escapes i = true →
      (get_direct_irradiance sq escapes F0 Dsun Nf n true).1.getD i 0 =
        F0 * max 0 (Vec3.dot (Nf i) (Vec3.sm (sq (Vec3.normSq Dsun))⁻¹ Dsun))) ∧
    (escapes i = false →
      (get_direct_irradiance sq escapes F0 Dsun Nf n true).1.getD i 0 = 0) := by
  have hget : (get_direct_irradiance sq escapes F0 Dsun Nf n true).1.getD i 0 =
      if escapes i then
        F0 * max 0 (Vec3.dot (Nf i) (Vec3.sm (sq (Vec3.normSq Dsun))⁻¹ Dsun))
      else 0 := by
    unfold get_direct_irradiance
    have hlen : i <
        (List.ofFn (fun k : Fin n =>
          if escapes k then
            F0 * max 0 (Vec3.dot (Nf k) (Vec3.sm (sq (Vec3.normSq Dsun))⁻¹ Dsun))
          else 0)).length := by
      simpa using hi
    simp only [if_pos trivial]
    rw [List.getD_eq_getElem _ _ hlen, List.getElem_ofFn]
  constructor
  · intro he
    rw [hget, if_pos he]
  · intro he
    rw [hget, he]
    simp

/-- a closed instance of C2: two faces, the first seeing the sun and the
second occluded, with the unit sun direction `(0,0,1)` and `F0 = 2` -/
theorem C2_direct_irradiance_formula_witness :
    ((fun i => decide (i = 0)) 0 = true ∧
      (get_direct_irradiance id (fun i => decide (i = 0)) 2 ⟨0, 0, 1⟩
          (fun _ => ⟨0, 0, 1⟩) 2 true).1.getD 0 0 =
        2 * max 0 (Vec3.dot ((fun _ : ℕ => (⟨0, 0, 1⟩ : Vec3)) 0)
          (Vec3.sm (id (Vec3.normSq (⟨0, 0, 1⟩ : Vec3)))⁻¹ ⟨0, 0, 1⟩))) ∧
    ((fun i => decide (i = 1)) 0 = false ∧
      (get_direct_irradiance id (fun i => decide (i = 1)) 2 ⟨0, 0, 1⟩
          (fun _ => ⟨0, 0, 1⟩) 2 true).1.getD 0 0 = 0) :=
  ⟨⟨by decide,
    (C2_direct_irradiance_formula id (fun i => decide (i = 0)) 2 ⟨0, 0, 1⟩
      (fun _ => ⟨0, 0, 1⟩) 2 0 (by decide)).1 (by decide)⟩,
   ⟨by decide,
    (C2_direct_irradiance_formula id (fun i => decide (i = 1)) 2 ⟨0, 0, 1⟩
      (fun _ => ⟨0, 0, 1⟩) 2 0 (by decide)).2 (by decide)⟩⟩

/-- C9: on a mesh with `n` faces and `m` sun directions, the batch
irradiance array has `n` rows (one per face) and `m` columns (one per sun
direction), and the `(i, s)` entry is the irradiance of face `i` under
sun direction `s` -/
theorem C9_batch_irradiance_shape (sq : ℚ → ℚ) (escapes : ℕ → ℕ → Bool)
    (F0 : ℚ) (Dsun : List Vec3) (Nf : ℕ → Vec3) (n : ℕ) (unitSvec : Bool) :
    (get_direct_irradiance_batch sq escapes F0 Dsun Nf n unitSvec).1.length = n ∧
    (∀ row ∈ (get_direct_irradiance_batch sq escapes F0 Dsun Nf n unitSvec).1,
      row.length = Dsun.length) ∧
    (∀ i s : ℕ, i < n → s < Dsun.length →
      ((get_direct_irradiance_batch sq escapes F0 Dsun Nf n unitSvec).1.getD i
          []).getD s 0 =
        if escapes s i then
          (if unitSvec then F0
            else F0 * (AUkm / sq (Vec3.normSq (Dsun.getD s Vec3.zero))) ^ 2) *
            max 0 (Vec3.dot (Nf i)
              (Vec3.sm (sq (Vec3.normSq (Dsun.getD s Vec3.zero)))⁻¹
                (Dsun.getD s Vec3.zero)))
        else 0) := by
  unfold get_direct_irradiance_batch
  refine ⟨by simp, by simp, ?_⟩
  intro i s hi hs
  have hleni : i < (List.ofFn (fun k : Fin n =>
      List.ofFn (fun t : Fin Dsun.length =>
        if escapes t k then
          (if unitSvec then F0
            else F0 * (AUkm / sq (Vec3.normSq (Dsun.getD t Vec3.zero))) ^ 2) *
            max 0 (Vec3.dot (Nf k)
              (Vec3.sm (sq (Vec3.normSq (Dsun.getD t Vec3.zero)))⁻¹
                (Dsun.getD t Vec3.zero)))
        else 0))).length := by
    simpa using hi
  rw [List.getD_eq_getElem _ _ hleni, List.getElem_ofFn]
  have hlens : s < (List.ofFn (fun t : Fin Dsun.length =>
      if escapes t i then
        (if unitSvec then F0
          else F0 * (AUkm / sq (Vec3.normSq (Dsun.getD t Vec3.zero))) ^ 2) *
          max 0 (Vec3.dot (Nf i)
            (Vec3.sm (sq (Vec3.normSq (Dsun.getD t Vec3.zero)))⁻¹
              (Dsun.getD t Vec3.zero)))
      else 0)).length := by
    simpa using hs
  rw [List.getD_eq_getElem _ _ hlens, List.getElem_ofFn]

/-- a closed instance of C9: one face, two sun directions, rows have
length `2` and there is exactly `1` row -/
theorem C9_batch_irradiance_shape_witness :
    (get_direct_irradiance_batch id (fun _ _ => true) 1
        [⟨0, 0, 1⟩, ⟨0, 1, 0⟩] (fun _ => ⟨0, 0, 1⟩) 1 true).1.length = 1 ∧
    ∀ row ∈ (get_direct_irradiance_batch id (fun _ _ => true) 1
        [⟨0, 0, 1⟩, ⟨0, 1, 0⟩] (fun _ => ⟨0, 0, 1⟩) 1 true).1,
      row.length = 2 :=
  ⟨(C9_batch_irradiance_shape id (fun _ _ => true) 1 [⟨0, 0, 1⟩, ⟨0, 1, 0⟩]
      (fun _ => ⟨0, 0, 1⟩) 1 true).1,
   (C9_batch_irradiance_shape id (fun _ _ => true) 1 [⟨0, 0, 1⟩, ⟨0, 1, 0⟩]
      (fun _ => ⟨0, 0, 1⟩) 1 true).2.1⟩

/-- C10: `get_direct_irradiance` divides its `Dsun` argument by its norm
in place: the caller's array afterwards holds the normalized direction
(unit squared norm), which differs from the passed-in value whenever that
was not already unit; the batch branch normalizes every row by its own
norm likewise -/
theorem C10_Dsun_normalized_in_place (sq : ℚ → ℚ) (escapes : ℕ → Bool)
    (F0 : ℚ) (Dsun : Vec3) (Nf : ℕ → Vec3) (n : ℕ) (unitSvec : Bool)
    (escapesB : ℕ → ℕ → Bool) (DsunB : List Vec3)
    (hsq : sq (Vec3.normSq Dsun) * sq (Vec3.normSq Dsun) = Vec3.normSq Dsun)
    (hpos : 0 < sq (Vec3.normSq Dsun)) (hunit : Vec3.normSq Dsun ≠ 1) :
    (get_direct_irradiance sq escapes F0 Dsun Nf n unitSvec).2 =
      Vec3.sm (sq (Vec3.normSq Dsun))⁻¹ Dsun ∧
    Vec3.normSq (get_direct_irradiance sq escapes F0 Dsun Nf n unitSvec).2 = 1 ∧
    (get_direct_irradiance sq escapes F0 Dsun Nf n unitSvec).2 ≠ Dsun ∧
    (get_direct_irradiance_batch sq escapesB F0 DsunB Nf n unitSvec).2 =
      DsunB.map (fun d => Vec3.sm (sq (Vec3.normSq d))⁻¹ d) := by
  have h2 : Vec3.normSq (get_direct_irradiance sq escapes F0 Dsun Nf n unitSvec).2 = 1 := by
    show Vec3.normSq (Vec3.sm (sq (Vec3.normSq Dsun))⁻¹ Dsun) = 1
    have hexp : Vec3.normSq (Vec3.sm (sq (Vec3.normSq Dsun))⁻¹ Dsun) =
        (sq (Vec3.normSq Dsun))⁻¹ * (sq (Vec3.normSq Dsun))⁻¹ * Vec3.normSq Dsun := by
      unfold Vec3.normSq Vec3.sm
      ring
    rw [hexp]
    set s := sq (Vec3.normSq Dsun) with hs
    rw [← hsq]
    have hne := ne_of_gt hpos
    field_simp
  refine ⟨rfl, h2, ?_, rfl⟩
  intro hfix
  rw [hfix] at h2
  exact hunit h2

/-- a closed instance of C10: the non-unit sun vector `(0,3,4)` has norm
`5`; after the call the caller's array holds `(0, 3/5, 4/5)` -/
theorem C10_Dsun_normalized_in_place_witness :
    (get_direct_irradiance sqAt25 (fun _ => true) 1 ⟨0, 3, 4⟩
        (fun _ => ⟨0, 0, 1⟩) 1 true).2 =
      Vec3.sm (sqAt25 (Vec3.normSq ⟨0, 3, 4⟩))⁻¹ ⟨0, 3, 4⟩ ∧
    Vec3.normSq (get_direct_irradiance sqAt25 (fun _ => true) 1 ⟨0, 3, 4⟩
        (fun _ => ⟨0, 0, 1⟩) 1 true).2 = 1 ∧
    (get_direct_irradiance sqAt25 (fun _ => true) 1 ⟨0, 3, 4⟩
        (fun _ => ⟨0, 0, 1⟩) 1 true).2 ≠ ⟨0, 3, 4⟩ ∧
    (get_direct_irradiance_batch sqAt25 (fun _ _ => true) 1 [⟨0, 3, 4⟩]
        (fun _ => ⟨0, 0, 1⟩) 1 true).2 =
      [⟨0, 3, 4⟩].map (fun d => Vec3.sm (sqAt25 (Vec3.normSq d))⁻¹ d) :=
  C10_Dsun_normalized_in_place sqAt25 (fun _ => true) 1 ⟨0, 3, 4⟩
    (fun _ => ⟨0, 0, 1⟩) 1 true (fun _ _ => true) [⟨0, 3, 4⟩]
    (by norm_num [sqAt25, Vec3.normSq])
    (by norm_num [sqAt25, Vec3.normSq])
    (by norm_num [Vec3.normSq])

/-- C3 counterexample: a mesh containing a degenerate (zero-area,
collinear) triangle is constructed successfully — no `DegenerateFace`
error exists anywhere in construction — and its face-area array is `[0]`,
so areas of successfully constructed meshes are not strictly positive -/
theorem C3_degenerate_face_counterexample :
    trimeshInit id Vdeg Fdeg none none =
      Except.ok ⟨Vdeg, Fdeg, [⟨0, 0, 0⟩], [0], [⟨1, 0, 0⟩]⟩ := by
  unfold trimeshInit get_surface_normals_and_face_areas get_surface_normals
    get_face_areas get_cross_products get_centroids
  norm_num [Vdeg, Fdeg, vtx, Vec3.cross, Vec3.sub, Vec3.add, Vec3.sm,
    Vec3.normSq, Vec3.zero]

/-- C3 amended: construction with computed normals and areas never fails
(there is no degeneracy check), and face areas `‖c_i‖/2` are only
guaranteed nonnegative — a degenerate face yields area `0`, not an
error -/
theorem C3_no_degeneracy_check (sq : ℚ → ℚ) (V : List Vec3) (F : List Face)
    (hsq : ∀ c, 0 ≤ sq c) :
    ∃ m, trimeshInit sq V F none none = Except.ok m ∧ ∀ a ∈ m.A, 0 ≤ a := by
  refine ⟨_, rfl, ?_⟩
  intro a ha
  simp only [get_surface_normals_and_face_areas, get_face_areas,
    List.mem_map] at ha
  obtain ⟨c, -, rfl⟩ := ha
  have := hsq (Vec3.normSq c)
  positivity

/-- a closed instance of the amended C3: the degenerate one-triangle mesh
constructs successfully with nonnegative areas -/
theorem C3_no_degeneracy_check_witness :
    ∃ m, trimeshInit (fun c => |c|) Vdeg Fdeg none none = Except.ok m ∧
      ∀ a ∈ m.A, 0 ≤ a :=
  C3_no_degeneracy_check (fun c => |c|) Vdeg Fdeg (fun c => abs_nonneg c)
